import Mathlib

/- Shallow embedding of the FUSE YECS application.

   Embedded components:
   - profile store merge (updateFormData, src/frontend/src/app.js:79)
   - heuristic scorer (calculateScore, src/frontend/src/app.js:446-461)
   - frontend insights helper (getAIInsights, src/frontend/src/app.js:638-647)
   - chat send guard (YecsCopilot.handleSend, src/frontend/src/app.js:153-186)
   - dashboard risk level (MainContent, src/frontend/src/app.js:117-126)
   - financial submit workflow (FinancialDataPage.handleSubmit, src/unnamed/part_001:194-226)
   - Flask Gemini endpoints with Python response cleaning and JSON parsing
     (calculate_score_with_gemini and get_ai_insights_from_gemini, src/unnamed/part_000)

   JavaScript numbers are modelled as rationals; JavaScript / Python strings as
   Lean String or List Char.  JSON values are modelled by an inductive Json type,
   and json.loads by a fuel-based parser (integers and decimal fractions; no
   exponent notation, no \u escapes - a strict sub-grammar of JSON). -/

/-! ## Profile store (AppProvider.updateFormData, src/frontend/src/app.js:79) -/

/-- A JS object section: a partial map from field names to values. -/
def SMap (V : Type) := String → Option V

inductive ProfileSection where
  | personal
  | business
  | financials
  | documents
deriving DecidableEq

/-- The four-section formData record held by AppProvider. -/
structure Profile (V : Type) where
  personal : SMap V
  business : SMap V
  financials : SMap V
  documents : SMap V

/-- JS object spread `{ ...old, ...new }`: keys of `new` win on conflict. -/
def mergeJs {V : Type} (old new : SMap V) : SMap V :=
  fun k =>
    match new k with
    | some v => some v
    | none => old k

def getSection {V : Type} (p : Profile V) : ProfileSection → SMap V
  | ProfileSection.personal => p.personal
  | ProfileSection.business => p.business
  | ProfileSection.financials => p.financials
  | ProfileSection.documents => p.documents

def setSection {V : Type} (p : Profile V) : ProfileSection → SMap V → Profile V
  | ProfileSection.personal, m => { p with personal := m }
  | ProfileSection.business, m => { p with business := m }
  | ProfileSection.financials, m => { p with financials := m }
  | ProfileSection.documents, m => { p with documents := m }

/-- `updateFormData(section, data)` =
    `setFormData(prev => ({ ...prev, [section]: { ...prev[section], ...data } }))`. -/
def updateFormData {V : Type} (sec : ProfileSection) (data : SMap V) (p : Profile V) :
    Profile V :=
  setSection p sec (mergeJs (getSection p sec) data)

/-! ## Heuristic scorer (calculateScore, src/frontend/src/app.js:446-461) -/

structure BusinessJs where
  businessStage : String
  yearsExperience : ℚ
  revenueProjection : ℚ

structure FinancialsJs where
  monthlyIncome : ℚ
  monthlyExpenses : ℚ
  savingsAmount : ℚ
  debtAmount : ℚ

/-- `Math.round` on a nonnegative-or-any rational: round half toward plus infinity. -/
def jsRound (x : ℚ) : ℤ := ⌊x + 1 / 2⌋

/-- `calculateScore` with `Math.random() * 100` made an explicit `jitter` argument. -/
def calculateScore (business : BusinessJs) (financials : FinancialsJs) (jitter : ℚ) : ℤ :=
  let score : ℚ := 300
  let score := if business.revenueProjection > 50000 then score + 50 else score
  let score := if business.yearsExperience > 2 then score + 40 else score
  let score :=
    if business.businessStage ∈ ["MVP Ready", "Early Customers", "Revenue Generating"]
    then score + 35 else score
  let cashFlow := financials.monthlyIncome - financials.monthlyExpenses
  let score := if cashFlow > 500 then score + 60 else score
  let score :=
    if financials.monthlyExpenses > 0 ∧
        financials.savingsAmount > financials.monthlyExpenses * 3
    then score + 40 else score
  let score := score + jitter
  min (jsRound score) 850

/-- The concrete business profile of the spec scenario (claim C6). -/
def scenarioBusiness : BusinessJs :=
  { businessStage := "MVP Ready", yearsExperience := 3, revenueProjection := 60000 }

/-- The concrete financials of the spec scenario (claim C6). -/
def scenarioFinancials : FinancialsJs :=
  { monthlyIncome := 4000, monthlyExpenses := 3000, savingsAmount := 10000, debtAmount := 0 }

/-! ## Frontend insights helper (getAIInsights, src/frontend/src/app.js:638-647)
    The React `icon` elements are presentation-only and omitted. -/

structure LoanRec where
  type : String
  rate : String
  amount : String
  terms : String
  reason : String

structure CreditImprovement where
  title : String
  action : String
  impact : String

structure InsightsBundle where
  loanRecommendations : List LoanRec
  creditImprovements : List CreditImprovement
  marketAlert : String

def sbaLoan : LoanRec :=
  { type := "SBA Microloan", rate := "6.5%", amount := "$50,000", terms := "Up to 6 years",
    reason := "Excellent for businesses with strong early traction." }

def lineOfCreditLoan : LoanRec :=
  { type := "Business Line of Credit", rate := "8.2%", amount := "$25,000", terms := "Revolving",
    reason := "Flexible funding for your positive cash flow." }

def fintechLoan : LoanRec :=
  { type := "Fintech Term Loan", rate := "9.5%", amount := "$75,000", terms := "3-5 years",
    reason := "Fast funding for growth opportunities." }

def dtiImprovement : CreditImprovement :=
  { title := "Optimize Debt-to-Income",
    action := "Consider consolidating smaller debts to lower your DTI ratio.",
    impact := "+15-25 points" }

def buildCreditImprovement : CreditImprovement :=
  { title := "Build Business Credit",
    action := "Open a business credit card and use it for small, regular purchases.",
    impact := "+20-30 points" }

/-- `getAIInsights(userData)`: conditional pushes onto the recommendation lists. -/
def getAIInsights (score cashFlow dti : ℚ) (industry : String) : InsightsBundle :=
  { loanRecommendations :=
      (if score ≥ 700 then [sbaLoan] else []) ++
      (if cashFlow > 500 then [lineOfCreditLoan] else []) ++
      [fintechLoan],
    creditImprovements :=
      (if dti > 20 then [dtiImprovement] else []) ++
      [buildCreditImprovement],
    marketAlert :=
      "SBA loan rates for the " ++ (if industry = "" then "your" else industry) ++
      " industry have decreased by 0.25% this quarter. It\x27s a favorable time to apply." }

/-! ## Chat assistant (YecsCopilot.handleSend, src/frontend/src/app.js:153-186) -/

inductive ChatSender where
  | user
  | ai
deriving DecidableEq

structure ChatMsg where
  sender : ChatSender
  text : String
deriving DecidableEq

structure ChatState where
  messages : List ChatMsg
  input : String
  isThinking : Bool
deriving DecidableEq

/-- JS whitespace characters recognised by `String.prototype.trim` (ASCII part). -/
def isJsWsChar (c : Char) : Bool :=
  c == ' ' || c == '\t' || c == '\n' || c == '\x0d' || c == '\x0b' || c == '\x0c'

/-- `!input.trim()`: the input is empty or whitespace-only. -/
def jsBlank (s : String) : Bool :=
  (s.toList.dropWhile isJsWsChar).isEmpty

/-- Outcome of the chat fetch: a network failure, or a response whose first
    candidate text may be missing. -/
inductive ChatOutcome where
  | netError
  | response (candidateText : Option String)

/-- The text appended as the AI message for a given fetch outcome, including the
    truthiness check on `result.candidates[0]?.content?.parts[0]?.text`. -/
def chatAiText : ChatOutcome → String
  | ChatOutcome.netError =>
      "I\x27m having trouble connecting to my brain. Please check the console for errors."
  | ChatOutcome.response none =>
      "I couldn\x27t generate a response right now. Please try asking differently."
  | ChatOutcome.response (some t) =>
      if t = "" then
        "I couldn\x27t generate a response right now. Please try asking differently."
      else t

/-- `handleSend`, with the awaited fetch collapsed into an explicit outcome.
    Returns the new state and whether a gateway call was made. -/
def handleSend (st : ChatState) (outcome : ChatOutcome) : ChatState × Bool :=
  if jsBlank st.input || st.isThinking then (st, false)
  else
    ({ messages :=
         st.messages ++
           [{ sender := ChatSender.user, text := st.input },
            { sender := ChatSender.ai, text := chatAiText outcome }],
       input := "",
       isThinking := false },
     true)

/-! ## Dashboard risk level (MainContent.userDataForDashboard, src/frontend/src/app.js:117-126) -/

/-- `score > 700 ? 'Low' : score > 600 ? 'Medium' : 'High'`; a null score fails
    both comparisons in JS. -/
def riskLevel (score : Option ℚ) : String :=
  match score with
  | none => "High"
  | some s => if s > 700 then "Low" else if s > 600 then "Medium" else "High"

/-- `score || 0`, as used for the dashboard score display. -/
def scoreOrZero (score : Option ℚ) : ℚ :=
  match score with
  | none => 0
  | some s => s

/-! ## Python string helpers (src/unnamed/part_000:109,160)
    `response_text.strip().replace('```json', '').replace('```', '')` -/

/-- Python str.strip() whitespace characters. -/
def isPyWsChar (c : Char) : Bool :=
  c == ' ' || c == '\t' || c == '\n' || c == '\x0d' || c == '\x0b' || c == '\x0c'

/-- Python str.strip(): drop leading and trailing whitespace. -/
def pyStrip (s : List Char) : List Char :=
  ((s.dropWhile isPyWsChar).reverse.dropWhile isPyWsChar).reverse

/-- Fuel-driven worker for Python str.replace (replace every occurrence,
    scanning left to right).  Fuel `s.length` always suffices because every
    step consumes at least one character of `s`. -/
def replaceAllF : Nat → List Char → List Char → List Char → List Char
  | 0, _, _, s => s
  | _ + 1, _, _, [] => []
  | n + 1, pat, rep, c :: rest =>
    if !pat.isEmpty && pat.isPrefixOf (c :: rest) then
      rep ++ replaceAllF n pat rep ((c :: rest).drop pat.length)
    else
      c :: replaceAllF n pat rep rest

/-- Python `s.replace(pat, rep)` for a nonempty pattern. -/
def pyReplace (s pat rep : List Char) : List Char :=
  replaceAllF s.length pat rep s

/-- Does `pat` occur as a contiguous substring of `s`? -/
def hasSub (pat : List Char) : List Char → Bool
  | [] => pat.isEmpty
  | c :: rest => pat.isPrefixOf (c :: rest) || hasSub pat rest

def fenceJson : List Char := "```json".toList

def fence : List Char := "```".toList

/-- `response_text.strip().replace('```json', '').replace('```', '')`. -/
def pyClean (s : List Char) : List Char :=
  pyReplace (pyReplace (pyStrip s) fenceJson []) fence []

/-- A candidate text that is a JSON body wrapped in Markdown code fences. -/
def fenceWrap (t : List Char) : List Char :=
  fenceJson ++ '\n' :: (t ++ '\n' :: fence)

/-! ## JSON values and a model of Python json.loads -/

inductive Json where
  | null
  | bool (b : Bool)
  | num (q : ℚ)
  | str (s : List Char)
  | arr (elems : List Json)
  | obj (fields : List (List Char × Json))

/-- JSON whitespace (RFC 8259). -/
def isJsonWs (c : Char) : Bool :=
  c == ' ' || c == '\t' || c == '\n' || c == '\x0d'

def skipJsonWs (s : List Char) : List Char := s.dropWhile isJsonWs

def dropTrailJsonWs (s : List Char) : List Char :=
  (s.reverse.dropWhile isJsonWs).reverse

/-- Strip JSON whitespace from both ends (json.loads ignores it there). -/
def jsonTrim (s : List Char) : List Char := dropTrailJsonWs (skipJsonWs s)

/-- JSON string escape sequences (without \uXXXX), as a lookup table from the
    escape letter to the character it denotes. -/
def escTable : List (Char × Char) :=
  [('n', '\n'), ('t', '\t'), ('r', '\x0d'), ('b', '\x08'), ('f', '\x0c'),
   ('"', '"'), ('\\', '\\'), ('/', '/')]

def escChar (c : Char) : Option Char :=
  match escTable.find? fun p => p.1 == c with
  | some p => some p.2
  | none => none

/-- Parse the characters of a JSON string after the opening quote; returns the
    decoded characters and the remainder after the closing quote. -/
def parseStrChars : List Char → Option (List Char × List Char)
  | [] => none
  | c :: rest =>
    if c == '"' then some ([], rest)
    else if c == '\\' then
      match rest with
      | [] => none
      | e :: rest2 =>
        match escChar e, parseStrChars rest2 with
        | some ec, some (cs, rem) => some (ec :: cs, rem)
        | _, _ => none
    else
      match parseStrChars rest with
      | some (cs, rem) => some (c :: cs, rem)
      | none => none

def digitVal (c : Char) : Nat := c.toNat - 48

def digitsToNat (ds : List Char) : Nat :=
  ds.foldl (fun a c => a * 10 + digitVal c) 0

/-- Parse a JSON number (integer or decimal fraction). -/
def parseNumber (s : List Char) : Option (ℚ × List Char) :=
  let (neg, s1) :=
    match s with
    | '-' :: r => (true, r)
    | _ => (false, s)
  let ip := s1.takeWhile Char.isDigit
  let s2 := s1.dropWhile Char.isDigit
  if ip.isEmpty then none
  else
    let signed : ℚ → ℚ := fun q => if neg then -q else q
    match s2 with
    | '.' :: r =>
      let fp := r.takeWhile Char.isDigit
      if fp.isEmpty then none
      else
        some (signed ((digitsToNat ip : ℚ) + (digitsToNat fp : ℚ) / (10 : ℚ) ^ fp.length),
          r.dropWhile Char.isDigit)
    | _ => some (signed (digitsToNat ip : ℚ), s2)

def nullLit : List Char := "null".toList
def trueLit : List Char := "true".toList
def falseLit : List Char := "false".toList

/-- Parser mode: a single value, the items of an array after `[`, or the fields
    of an object after `\x7b`. -/
inductive PMode where
  | val
  | items
  | fields

inductive PRes where
  | v (j : Json)
  | vs (js : List Json)
  | fs (kvs : List (List Char × Json))

/-- Fuel-based recursive-descent JSON parser. -/
def pj : Nat → PMode → List Char → Option (PRes × List Char)
  | 0, _, _ => none
  | n + 1, PMode.val, s0 =>
    let s := skipJsonWs s0
    if nullLit.isPrefixOf s then some (PRes.v Json.null, s.drop 4)
    else if trueLit.isPrefixOf s then some (PRes.v (Json.bool true), s.drop 4)
    else if falseLit.isPrefixOf s then some (PRes.v (Json.bool false), s.drop 5)
    else
      match s with
      | [] => none
      | c :: rest =>
        if c == '"' then
          match parseStrChars rest with
          | some (cs, rem) => some (PRes.v (Json.str cs), rem)
          | none => none
        else if c == '[' then
          match skipJsonWs rest with
          | ']' :: rem => some (PRes.v (Json.arr []), rem)
          | s2 =>
            match pj n PMode.items s2 with
            | some (PRes.vs js, rem) => some (PRes.v (Json.arr js), rem)
            | _ => none
        else if c == '\x7b' then
          match skipJsonWs rest with
          | '\x7d' :: rem => some (PRes.v (Json.obj []), rem)
          | s2 =>
            match pj n PMode.fields s2 with
            | some (PRes.fs kvs, rem) => some (PRes.v (Json.obj kvs), rem)
            | _ => none
        else if c == '-' || c.isDigit then
          match parseNumber (c :: rest) with
          | some (q, rem) => some (PRes.v (Json.num q), rem)
          | none => none
        else none
  | n + 1, PMode.items, s =>
    match pj n PMode.val s with
    | some (PRes.v j, rem) =>
      match skipJsonWs rem with
      | ',' :: rem2 =>
        match pj n PMode.items rem2 with
        | some (PRes.vs js, rem3) => some (PRes.vs (j :: js), rem3)
        | _ => none
      | ']' :: rem2 => some (PRes.vs [j], rem2)
      | _ => none
    | _ => none
  | n + 1, PMode.fields, s =>
    match skipJsonWs s with
    | '"' :: rest =>
      match parseStrChars rest with
      | some (k, rem) =>
        match skipJsonWs rem with
        | ':' :: rem2 =>
          match pj n PMode.val rem2 with
          | some (PRes.v j, rem3) =>
            match skipJsonWs rem3 with
            | ',' :: rem4 =>
              match pj n PMode.fields rem4 with
              | some (PRes.fs kvs, rem5) => some (PRes.fs ((k, j) :: kvs), rem5)
              | _ => none
            | '\x7d' :: rem4 => some (PRes.fs [(k, j)], rem4)
            | _ => none
          | _ => none
        | _ => none
      | none => none
    | _ => none

/-- Model of Python `json.loads`: parse one JSON value; whitespace may surround
    it, nothing else. -/
def loads (s : List Char) : Option Json :=
  let u := jsonTrim s
  match pj (2 * u.length + 4) PMode.val u with
  | some (PRes.v j, []) => some j
  | _ => none

/-! ## Flask score / insights endpoints (src/unnamed/part_000:62-166)
    The endpoints are modelled from the point where `gemini_response` (the JSON
    body already returned by `call_gemini_api`) is in hand; the earlier
    request-body validation and the HTTP transport are outside the claims. -/

/-- Python dict semantics for duplicate keys: the last binding wins. -/
def getLast (k : List Char) : List (List Char × Json) → Option Json
  | [] => none
  | p :: rest =>
    match getLast k rest with
    | some v => some v
    | none => if p.1 == k then some p.2 else none

inductive PyErr where
  | keyError
  | indexError
  | typeError
  | attributeError
deriving DecidableEq

/-- Python subscript `x[key]` for a string key. -/
def pyGetItemStr (j : Json) (k : List Char) : Except PyErr Json :=
  match j with
  | Json.obj fs =>
    match getLast k fs with
    | some v => Except.ok v
    | none => Except.error PyErr.keyError
  | _ => Except.error PyErr.typeError

/-- Python subscript `x[0]`. -/
def pyGetItem0 (j : Json) : Except PyErr Json :=
  match j with
  | Json.arr [] => Except.error PyErr.indexError
  | Json.arr (x :: _) => Except.ok x
  | Json.str [] => Except.error PyErr.indexError
  | Json.str (c :: _) => Except.ok (Json.str [c])
  | Json.obj _ => Except.error PyErr.keyError
  | _ => Except.error PyErr.typeError

def errKey : List Char := "error".toList
def candidatesKey : List Char := "candidates".toList
def contentKey : List Char := "content".toList
def partsKey : List Char := "parts".toList
def textKey : List Char := "text".toList
def yecsScoreKey : List Char := "yecs_score".toList

/-- Python `"error" in gemini_response` (membership test by runtime type:
    key lookup on a dict, element equality on a list, substring on a string,
    TypeError otherwise). -/
def pyContainsError (j : Json) : Except PyErr Bool :=
  match j with
  | Json.obj fs => Except.ok (fs.any fun p => p.1 == errKey)
  | Json.arr xs =>
    Except.ok (xs.any fun x =>
      match x with
      | Json.str s => s == errKey
      | _ => false)
  | Json.str s => Except.ok (hasSub errKey s)
  | _ => Except.error PyErr.typeError

/-- `gemini_response['candidates'][0]['content']['parts'][0]['text']`, then the
    implicit requirement that the result is a string (`.strip()` would raise
    AttributeError otherwise). -/
def extractText (env : Json) : Except PyErr (List Char) := do
  let c ← pyGetItemStr env candidatesKey
  let c0 ← pyGetItem0 c
  let ct ← pyGetItemStr c0 contentKey
  let p ← pyGetItemStr ct partsKey
  let p0 ← pyGetItem0 p
  let t ← pyGetItemStr p0 textKey
  match t with
  | Json.str s => Except.ok s
  | _ => Except.error PyErr.attributeError

/-- The exceptions named by `except (KeyError, IndexError, json.JSONDecodeError)`. -/
def isCaught : PyErr → Bool
  | PyErr.keyError => true
  | PyErr.indexError => true
  | PyErr.typeError => false
  | PyErr.attributeError => false

/-- The observable result of an endpoint: a 200 body, a 500 error body, or an
    exception that no handler catches. -/
inductive EndpointResult where
  | ok (body : Json)
  | err (body : Json)
  | unhandled (e : PyErr)

def statusOf : EndpointResult → Option Nat
  | EndpointResult.ok _ => some 200
  | EndpointResult.err _ => some 500
  | EndpointResult.unhandled _ => none

def scoreParseErrorBody : Json :=
  Json.obj [(errKey, Json.str "Failed to parse the score from AI response.".toList)]

def insightsParseErrorBody : Json :=
  Json.obj [(errKey, Json.str "Failed to parse insights from AI response.".toList)]

/-- The shared body of both endpoints after `call_gemini_api` returns. -/
def processGemini (env : Json) (parseErrorBody : Json) : EndpointResult :=
  match pyContainsError env with
  | Except.error e => EndpointResult.unhandled e
  | Except.ok true => EndpointResult.err env
  | Except.ok false =>
    match extractText env with
    | Except.error e =>
      if isCaught e then EndpointResult.err parseErrorBody
      else EndpointResult.unhandled e
    | Except.ok response_text =>
      match loads (pyClean response_text) with
      | some score_data => EndpointResult.ok score_data
      | none => EndpointResult.err parseErrorBody

def calculate_score_with_gemini (env : Json) : EndpointResult :=
  processGemini env scoreParseErrorBody

def get_ai_insights_from_gemini (env : Json) : EndpointResult :=
  processGemini env insightsParseErrorBody

/-- A well-formed Gemini response envelope around one candidate text. -/
def mkEnvelope (t : List Char) : Json :=
  Json.obj [(candidatesKey,
    Json.arr [Json.obj [(contentKey,
      Json.obj [(partsKey,
        Json.arr [Json.obj [(textKey, Json.str t)]])])]])]

/-! ## Financials submit workflow (FinancialDataPage.handleSubmit, src/unnamed/part_001:194-226) -/

/-- JS truthiness of a parsed JSON value. -/
def jsTruthy : Json → Bool
  | Json.null => false
  | Json.bool b => b
  | Json.num q => decide (q ≠ 0)
  | Json.str s => !s.isEmpty
  | Json.arr _ => true
  | Json.obj _ => true

/-- JS property access `j.k` on a parsed JSON value (undefined elsewhere). -/
def jsField (j : Json) (k : List Char) : Option Json :=
  match j with
  | Json.obj fs => getLast k fs
  | _ => none

/-- `if (result.error)`. -/
def jsTruthyField (j : Json) (k : List Char) : Bool :=
  match jsField j k with
  | some v => jsTruthy v
  | none => false

/-- part_001 formData: three object sections (documents are not kept here). -/
structure Form9 where
  personal : Json
  business : Json
  financials : Json

/-- The app state touched by FinancialDataPage.handleSubmit. -/
structure App9 where
  page : String
  formData : Form9
  scoreData : Option Json

/-- Outcome of `fetch`: a thrown network error, or a response with `ok` status
    and a body that may or may not parse as JSON (`response.json()` throws on
    `none`). -/
inductive Fetch9 where
  | netError
  | resp (ok : Bool) (body : Option Json)

/-- `handleSubmit` of the financials page: merge financials, then either alert
    on any failure (leaving page and scoreData untouched) or store the result
    and advance to the score page.  The second component records whether
    `alert(...)` ran. -/
def handleSubmit9 (st : App9) (localData : Json) (outcome : Fetch9) : App9 × Bool :=
  let updated : App9 := { st with formData := { st.formData with financials := localData } }
  match outcome with
  | Fetch9.netError => (updated, true)
  | Fetch9.resp ok body =>
    if !ok then (updated, true)
    else
      match body with
      | none => (updated, true)
      | some result =>
        if jsTruthyField result errKey then (updated, true)
        else ({ updated with scoreData := some result, page := "score" }, false)

/-- All the ways `handleSubmit` can fail: network error, non-2xx status,
    unparseable body, or an `error` field in the payload. -/
def isFailure9 : Fetch9 → Bool
  | Fetch9.netError => true
  | Fetch9.resp ok body =>
    !ok ||
      match body with
      | none => true
      | some result => jsTruthyField result errKey

/-! ## Concrete fixtures and projections used by the statements below -/

/-- The delivered yecs_score of a 200 response body. -/
def deliveredYecs (r : EndpointResult) : Option ℚ :=
  match r with
  | EndpointResult.ok body =>
    match jsField body yecsScoreKey with
    | some (Json.num q) => some q
    | _ => none
  | _ => none

/-- The string value of field "a" of a parsed object, if any. -/
def aFieldString (o : Option Json) : Option (List Char) :=
  match o with
  | some j =>
    match jsField j "a".toList with
    | some (Json.str s) => some s
    | _ => none
  | none => none

/-- A model reply whose yecs_score is out of range. -/
def outOfRangeText : List Char := "\x7b\"yecs_score\": 900\x7d".toList

/-- A JSON object whose string value contains a Markdown fence sequence. -/
def trickyText : List Char := "\x7b\"a\": \"x```json y\"\x7d".toList

/-- A small profile over Nat values, for concrete instantiations. -/
def sampleProfile : Profile Nat :=
  { personal := fun _ => some 0, business := fun _ => some 1,
    financials := fun _ => some 2, documents := fun _ => some 3 }

/-- A single-key partial update. -/
def sampleData : SMap Nat := fun k => if k = "industry" then some 7 else none

/-- A workflow state sitting on the financials page with no score yet. -/
def app9Sample : App9 :=
  { page := "financials",
    formData := { personal := Json.null, business := Json.null, financials := Json.null },
    scoreData := none }

/-! ## Theorems -/

/-- C1: for every profile and every jitter in [0, 100), the heuristic scorer
    returns an integer score in the interval [300, 850]. -/
theorem heuristic_score_in_range (b : BusinessJs) (f : FinancialsJs) (jitter : ℚ)
    (h0 : 0 ≤ jitter) (_h1 : jitter < 100) :
    300 ≤ calculateScore b f jitter ∧ calculateScore b f jitter ≤ 850 := by
  unfold calculateScore
  refine ⟨le_min ?_ (by norm_num), min_le_right _ _⟩
  unfold jsRound
  rw [Int.le_floor]
  push_cast
  split_ifs <;> linarith

/-- Witness for C1 at the concrete scenario profile with jitter 0. -/
theorem heuristic_score_in_range_witness :
    (0 : ℚ) ≤ 0 ∧ (0 : ℚ) < 100 ∧
      (300 ≤ calculateScore scenarioBusiness scenarioFinancials 0 ∧
        calculateScore scenarioBusiness scenarioFinancials 0 ≤ 850) :=
  ⟨le_refl 0, by norm_num,
    heuristic_score_in_range scenarioBusiness scenarioFinancials 0 (le_refl 0) (by norm_num)⟩

/-- C2: merging partial data into a section keeps every key of the update (new
    values win), keeps the keys it does not mention, and leaves the other three
    sections unchanged. -/
theorem updateFormData_merge (V : Type) (p : Profile V) (sec : ProfileSection)
    (data : SMap V) :
    (∀ k v, data k = some v → getSection (updateFormData sec data p) sec k = some v) ∧
    (∀ k, data k = none → getSection (updateFormData sec data p) sec k = getSection p sec k) ∧
    (∀ s, s ≠ sec → getSection (updateFormData sec data p) s = getSection p s) := by
  refine ⟨?_, ?_, ?_⟩
  · intro k v hk
    cases sec <;> simp [updateFormData, setSection, getSection, mergeJs, hk]
  · intro k hk
    cases sec <;> simp [updateFormData, setSection, getSection, mergeJs, hk]
  · intro s hs
    cases sec <;> cases s <;>
      first
        | exact absurd rfl hs
        | simp [updateFormData, setSection, getSection]

/-- Witness for C2: a one-key update of the business section. -/
theorem updateFormData_merge_witness :
    getSection (updateFormData ProfileSection.business sampleData sampleProfile)
        ProfileSection.business "industry" = some 7 ∧
    getSection (updateFormData ProfileSection.business sampleData sampleProfile)
        ProfileSection.business "name" = getSection sampleProfile ProfileSection.business "name" ∧
    getSection (updateFormData ProfileSection.business sampleData sampleProfile)
        ProfileSection.personal = getSection sampleProfile ProfileSection.personal := by
  refine ⟨?_, ?_, ?_⟩
  · exact (updateFormData_merge Nat sampleProfile ProfileSection.business sampleData).1
      "industry" 7 (by simp [sampleData])
  · exact (updateFormData_merge Nat sampleProfile ProfileSection.business sampleData).2.1
      "name" (by simp [sampleData])
  · exact (updateFormData_merge Nat sampleProfile ProfileSection.business sampleData).2.2
      ProfileSection.personal (by decide)

/-- C6 counterexample: at jitter 99.5 (inside [0, 100)) the scenario profile
    scores exactly 625, which is outside [525, 625). -/
theorem scenario_score_counterexample :
    ((0 : ℚ) ≤ 199 / 2 ∧ (199 : ℚ) / 2 < 100) ∧
      calculateScore scenarioBusiness scenarioFinancials (199 / 2) = 625 ∧
      ¬ ((625 : ℤ) < 625) := by
  refine ⟨⟨by norm_num, by norm_num⟩, ?_, by norm_num⟩
  have he : calculateScore scenarioBusiness scenarioFinancials (199 / 2)
      = min ⌊(525 : ℚ) + 199 / 2 + 1 / 2⌋ 850 := by
    unfold calculateScore scenarioBusiness scenarioFinancials jsRound
    norm_num
  rw [he]
  norm_num [min_def]

/-- C6 amended: for every jitter in [0, 100), the scenario profile scores in
    the closed interval [525, 625] (Math.round can reach 625 at jitter 99.5). -/
theorem scenario_score_range (j : ℚ) (h0 : 0 ≤ j) (h1 : j < 100) :
    525 ≤ calculateScore scenarioBusiness scenarioFinancials j ∧
      calculateScore scenarioBusiness scenarioFinancials j ≤ 625 := by
  have he : calculateScore scenarioBusiness scenarioFinancials j
      = min ⌊(525 : ℚ) + j + 1 / 2⌋ 850 := by
    unfold calculateScore scenarioBusiness scenarioFinancials jsRound
    norm_num
  rw [he]
  have hup : ⌊(525 : ℚ) + j + 1 / 2⌋ ≤ 625 := by
    rw [Int.lt_add_one_iff.symm, Int.floor_lt]
    push_cast
    linarith
  have hlo : (525 : ℤ) ≤ ⌊(525 : ℚ) + j + 1 / 2⌋ := by
    rw [Int.le_floor]
    push_cast
    linarith
  rw [min_eq_left (hup.trans (by norm_num))]
  exact ⟨hlo, hup⟩

/-- Witness for the amended C6 at jitter 0. -/
theorem scenario_score_range_witness :
    (0 : ℚ) ≤ 0 ∧ (0 : ℚ) < 100 ∧
      (525 ≤ calculateScore scenarioBusiness scenarioFinancials 0 ∧
        calculateScore scenarioBusiness scenarioFinancials 0 ≤ 625) :=
  ⟨le_refl 0, by norm_num, scenario_score_range 0 (le_refl 0) (by norm_num)⟩

/-- C8: an empty or whitespace-only input, or a send while thinking, is a
    no-op: the state is unchanged and no gateway call is made. -/
theorem chat_send_guard (st : ChatState) (outcome : ChatOutcome)
    (h : jsBlank st.input = true ∨ st.isThinking = true) :
    handleSend st outcome = (st, false) := by
  unfold handleSend
  rcases h with h | h <;> simp [h]

/-- Witness for C8: a whitespace-only input with the thinking flag clear. -/
theorem chat_send_guard_witness :
    handleSend { messages := [], input := "   ", isThinking := false } ChatOutcome.netError
      = ({ messages := [], input := "   ", isThinking := false }, false) :=
  chat_send_guard _ ChatOutcome.netError (Or.inl (by decide))

/-- C9: when the scoring fetch fails in any way the submit handler alerts and
    leaves the page and the stored score unchanged; only a clean response
    advances to the score page carrying the parsed result. -/
theorem financials_submit_policy (st : App9) (localData : Json) (outcome : Fetch9) :
    ((handleSubmit9 st localData outcome).2 = true →
      (handleSubmit9 st localData outcome).1.page = st.page ∧
      (handleSubmit9 st localData outcome).1.scoreData = st.scoreData) ∧
    ((handleSubmit9 st localData outcome).2 = false →
      ∃ result, outcome = Fetch9.resp true (some result) ∧
        jsTruthyField result errKey = false ∧
        (handleSubmit9 st localData outcome).1.page = "score" ∧
        (handleSubmit9 st localData outcome).1.scoreData = some result) ∧
    (isFailure9 outcome = true → (handleSubmit9 st localData outcome).2 = true) := by
  rcases outcome with _ | ⟨ok, body⟩
  · simp [handleSubmit9]
  · cases ok with
    | false => cases body <;> simp [handleSubmit9]
    | true =>
      cases body with
      | none => simp [handleSubmit9]
      | some result =>
        by_cases h : jsTruthyField result errKey
        · simp [handleSubmit9, isFailure9, h]
        · simp only [Bool.not_eq_true] at h
          simp [handleSubmit9, isFailure9, h]

/-- Witness for C9: a network error leaves the sample state in place. -/
theorem financials_submit_policy_witness :
    (handleSubmit9 app9Sample Json.null Fetch9.netError).1.page = "financials" ∧
    (handleSubmit9 app9Sample Json.null Fetch9.netError).1.scoreData = none := by
  have h := (financials_submit_policy app9Sample Json.null Fetch9.netError).1 rfl
  exact ⟨h.1.trans rfl, h.2.trans rfl⟩

/-- C10: the fallback dashboard risk label is a total function of the score:
    Low iff score > 700, Medium iff 600 < score ≤ 700, High otherwise, with a
    missing score treated as 0. -/
theorem risk_level_total (s : Option ℚ) :
    (riskLevel s = "Low" ↔ scoreOrZero s > 700) ∧
    (riskLevel s = "Medium" ↔ 600 < scoreOrZero s ∧ scoreOrZero s ≤ 700) ∧
    (riskLevel s = "High" ↔ scoreOrZero s ≤ 600) := by
  cases s with
  | none =>
    refine ⟨?_, ?_, ?_⟩ <;> simp [riskLevel, scoreOrZero]
  | some v =>
    simp only [riskLevel, scoreOrZero]
    split_ifs with h7 h6
    · refine ⟨?_, ?_, ?_⟩
      · simp [h7]
      · constructor
        · intro h; exact absurd h (by decide)
        · rintro ⟨-, hle⟩; exact absurd h7 (not_lt.mpr hle)
      · constructor
        · intro h; exact absurd h (by decide)
        · intro hle; exact absurd h7 (not_lt.mpr (hle.trans (by norm_num)))
    · refine ⟨?_, ?_, ?_⟩
      · constructor
        · intro h; exact absurd h (by decide)
        · intro h; exact absurd h h7
      · simp [h6, not_lt.mp h7]
      · constructor
        · intro h; exact absurd h (by decide)
        · intro hle; exact absurd h6 (not_lt.mpr hle)
    · refine ⟨?_, ?_, ?_⟩
      · constructor
        · intro h; exact absurd h (by decide)
        · intro h; exact absurd h h7
      · constructor
        · intro h; exact absurd h (by decide)
        · rintro ⟨hgt, -⟩; exact absurd hgt h6
      · simp [not_lt.mp h6]

/-- On a well-formed envelope both endpoints reduce to cleaning and parsing the
    candidate text. -/
theorem processGemini_wellformed (t : List Char) (body : Json) :
    processGemini (mkEnvelope t) body =
      match loads (pyClean t) with
      | some score_data => EndpointResult.ok score_data
      | none => EndpointResult.err body := rfl

/-- A key that appears in no binding is absent from the dict. -/
theorem getLast_eq_none (k : List Char) (fs : List (List Char × Json))
    (h : (fs.any fun p => p.1 == k) = false) : getLast k fs = none := by
  induction fs with
  | nil => rfl
  | cons p rest ih =>
    simp only [List.any_cons, Bool.or_eq_false_iff] at h
    unfold getLast
    rw [ih h.2, h.1]
    rfl

/-- C7 counterexample: for a profile with score 500, cash flow 0 and DTI 10 the
    insights helper returns one loan recommendation and one credit improvement,
    not three and two. -/
theorem insights_counts_counterexample :
    (getAIInsights 500 0 10 "Tech").loanRecommendations.length = 1 ∧
    (getAIInsights 500 0 10 "Tech").creditImprovements.length = 1 ∧
    (1 : Nat) ≠ 3 ∧ (1 : Nat) ≠ 2 := by
  have h7 : ¬ ((500 : ℚ) ≥ 700) := by norm_num
  have hc : ¬ ((0 : ℚ) > 500) := by norm_num
  have hd : ¬ ((10 : ℚ) > 20) := by norm_num
  refine ⟨?_, ?_, by decide, by decide⟩ <;>
    simp [getAIInsights, h7, hc, hd]

/-- C7 amended: the frontend helper returns 1 to 3 loan recommendations (the
    SBA entry only when score ≥ 700, the credit line only when cash flow > 500)
    and 1 or 2 improvements (the DTI entry only when dti > 20); the backend
    insights endpoint passes the parsed model bundle through without counting
    its entries. -/
theorem insights_counts_characterization :
    (∀ (score cashFlow dti : ℚ) (industry : String),
      (getAIInsights score cashFlow dti industry).loanRecommendations.length
          = (if score ≥ 700 then 1 else 0) + (if cashFlow > 500 then 1 else 0) + 1 ∧
      (getAIInsights score cashFlow dti industry).creditImprovements.length
          = (if dti > 20 then 1 else 0) + 1) ∧
    (∀ (t : List Char) (j : Json), loads (pyClean t) = some j →
      get_ai_insights_from_gemini (mkEnvelope t) = EndpointResult.ok j) := by
  constructor
  · intro score cashFlow dti industry
    constructor <;> simp only [getAIInsights] <;> split_ifs <;> simp
  · intro t j h
    rw [show get_ai_insights_from_gemini (mkEnvelope t)
        = processGemini (mkEnvelope t) insightsParseErrorBody from rfl,
      processGemini_wellformed, h]

/-- Witness for the amended C7: a low-score instantiation of the frontend part
    and a tiny parsed payload through the backend part. -/
theorem insights_counts_characterization_witness :
    (getAIInsights 500 0 10 "Tech").loanRecommendations.length = 1 ∧
    get_ai_insights_from_gemini (mkEnvelope "\x7b\x7d".toList)
      = EndpointResult.ok (Json.obj []) := by
  constructor
  · have h := (insights_counts_characterization.1 500 0 10 "Tech").1
    rw [h]
    norm_num
  · exact insights_counts_characterization.2 "\x7b\x7d".toList (Json.obj []) rfl

/-- C3 counterexample: a model reply of yecs_score 900 is delivered as a 200
    response carrying 900, which is outside [300, 850]: no clamping happens. -/
theorem score_endpoint_no_clamp_counterexample :
    statusOf (calculate_score_with_gemini (mkEnvelope outOfRangeText)) = some 200 ∧
    deliveredYecs (calculate_score_with_gemini (mkEnvelope outOfRangeText)) = some 900 ∧
    ¬ ((300 : ℚ) ≤ 900 ∧ (900 : ℚ) ≤ 850) := by
  refine ⟨rfl, ?_, by norm_num⟩
  rfl

/-- C3 amended: the score endpoint returns whatever yecs_score the model's
    parsed payload contains, unchanged; no clamping into [300, 850] is
    performed before delivery. -/
theorem score_endpoint_passthrough (t : List Char) (j : Json)
    (h : loads (pyClean t) = some j) :
    calculate_score_with_gemini (mkEnvelope t) = EndpointResult.ok j ∧
    statusOf (calculate_score_with_gemini (mkEnvelope t)) = some 200 := by
  have e : calculate_score_with_gemini (mkEnvelope t) = EndpointResult.ok j := by
    rw [show calculate_score_with_gemini (mkEnvelope t)
        = processGemini (mkEnvelope t) scoreParseErrorBody from rfl,
      processGemini_wellformed, h]
  exact ⟨e, by rw [e]; rfl⟩

/-- Witness for the amended C3 on an empty-object payload. -/
theorem score_endpoint_passthrough_witness :
    calculate_score_with_gemini (mkEnvelope "\x7b\x7d".toList)
      = EndpointResult.ok (Json.obj []) :=
  (score_endpoint_passthrough "\x7b\x7d".toList (Json.obj []) rfl).1

/-- C4: an envelope without a candidates entry, and an envelope whose candidate
    text is not valid JSON, both produce the 500 parse-error body - never an
    uncaught exception and never a 200 score. -/
theorem score_endpoint_parse_failure (fs : List (List Char × Json)) (t : List Char)
    (hNoErr : (fs.any fun p => p.1 == errKey) = false)
    (hNoCand : (fs.any fun p => p.1 == candidatesKey) = false)
    (hBad : loads (pyClean t) = none) :
    (calculate_score_with_gemini (Json.obj fs) = EndpointResult.err scoreParseErrorBody ∧
      statusOf (calculate_score_with_gemini (Json.obj fs)) = some 500 ∧
      ∀ b, calculate_score_with_gemini (Json.obj fs) ≠ EndpointResult.ok b) ∧
    (calculate_score_with_gemini (mkEnvelope t) = EndpointResult.err scoreParseErrorBody ∧
      statusOf (calculate_score_with_gemini (mkEnvelope t)) = some 500 ∧
      ∀ b, calculate_score_with_gemini (mkEnvelope t) ≠ EndpointResult.ok b) := by
  have e1 : calculate_score_with_gemini (Json.obj fs) = EndpointResult.err scoreParseErrorBody := by
    have h1 : pyContainsError (Json.obj fs) = Except.ok false := by
      simp [pyContainsError, hNoErr]
    have h3 : pyGetItemStr (Json.obj fs) candidatesKey = Except.error PyErr.keyError := by
      simp [pyGetItemStr, getLast_eq_none candidatesKey fs hNoCand]
    have h2 : extractText (Json.obj fs) = Except.error PyErr.keyError := by
      unfold extractText
      rw [h3]
      rfl
    unfold calculate_score_with_gemini processGemini
    rw [h1, h2]
    rfl
  have e2 : calculate_score_with_gemini (mkEnvelope t) = EndpointResult.err scoreParseErrorBody := by
    rw [show calculate_score_with_gemini (mkEnvelope t)
        = processGemini (mkEnvelope t) scoreParseErrorBody from rfl,
      processGemini_wellformed, hBad]
  refine ⟨⟨e1, by rw [e1]; rfl, ?_⟩, ⟨e2, by rw [e2]; rfl, ?_⟩⟩
  · intro b h
    rw [e1] at h
    exact EndpointResult.noConfusion h
  · intro b h
    rw [e2] at h
    exact EndpointResult.noConfusion h

/-- Witness for C4: an empty dict envelope and a non-JSON candidate text. -/
theorem score_endpoint_parse_failure_witness :
    calculate_score_with_gemini (Json.obj []) = EndpointResult.err scoreParseErrorBody ∧
    calculate_score_with_gemini (mkEnvelope "x".toList)
      = EndpointResult.err scoreParseErrorBody := by
  have h := score_endpoint_parse_failure [] "x".toList rfl rfl rfl
  exact ⟨h.1.1, h.2.1⟩

/-- Boolean prefix test unfolded to an existential. -/
theorem isPrefixOf_iff_exists (p : List Char) :
    ∀ s : List Char, p.isPrefixOf s = true ↔ ∃ r, p ++ r = s := by
  induction p with
  | nil => intro s; simp [List.isPrefixOf]
  | cons a p ih =>
    intro s
    cases s with
    | nil => simp [List.isPrefixOf]
    | cons b s =>
      simp only [List.isPrefixOf, Bool.and_eq_true, beq_iff_eq, ih, List.cons_append,
        List.cons.injEq]
      constructor
      · rintro ⟨rfl, r, rfl⟩; exact ⟨r, rfl, rfl⟩
      · rintro ⟨r, rfl, rfl⟩; exact ⟨rfl, r, rfl⟩

theorem isPrefixOf_append_self (p r : List Char) : p.isPrefixOf (p ++ r) = true :=
  (isPrefixOf_iff_exists p (p ++ r)).mpr ⟨r, rfl⟩

/-- A pattern not containing `sep` that is a prefix of `t ++ sep :: u` is
    already a prefix of `t`. -/
theorem isPrefixOf_through_sep (p t u : List Char) (sep : Char)
    (hsep : sep ∉ p) (h : p.isPrefixOf (t ++ sep :: u) = true) :
    p.isPrefixOf t = true := by
  obtain ⟨r, hr⟩ := (isPrefixOf_iff_exists p _).mp h
  rcases List.append_eq_append_iff.mp hr with ⟨a, ha, _⟩ | ⟨c, hc, hcu⟩
  · exact (isPrefixOf_iff_exists p t).mpr ⟨a, ha.symm⟩
  · cases c with
    | nil =>
      rw [List.append_nil] at hc
      exact (isPrefixOf_iff_exists p t).mpr ⟨[], by rw [List.append_nil, hc]⟩
    | cons d c =>
      rw [List.cons_append] at hcu
      injection hcu with h1 _
      subst h1
      have hmem : sep ∈ p := by
        rw [hc]
        exact List.mem_append_right t (List.mem_cons_self sep c)
      exact absurd hmem hsep

theorem replaceAllF_nil (n : Nat) (pat rep : List Char) : replaceAllF n pat rep [] = [] := by
  cases n <;> rfl

/-- If the pattern occurs nowhere in `s`, replacement is the identity, whatever
    the fuel. -/
theorem replaceAllF_no_occurrence (pat rep : List Char) :
    ∀ (s : List Char) (n : Nat), hasSub pat s = false → replaceAllF n pat rep s = s := by
  intro s
  induction s with
  | nil => intro n _; cases n <;> rfl
  | cons c rest ih =>
    intro n h
    simp only [hasSub, Bool.or_eq_false_iff] at h
    cases n with
    | zero => rfl
    | succ n =>
      show (if !pat.isEmpty && pat.isPrefixOf (c :: rest) then
          rep ++ replaceAllF n pat rep ((c :: rest).drop pat.length)
        else c :: replaceAllF n pat rep rest) = c :: rest
      rw [h.1]
      simp [ih n h.2]

/-- At a position where the nonempty pattern matches, one replacement step
    fires and skips the pattern. -/
theorem replaceAllF_fires (pat rep s : List Char) (n : Nat) (hne : pat ≠ []) :
    replaceAllF (n + 1) pat rep (pat ++ s) = rep ++ replaceAllF n pat rep s := by
  cases pat with
  | nil => exact absurd rfl hne
  | cons a pr =>
    have hpre : (a :: pr).isPrefixOf ((a :: pr) ++ s) = true := isPrefixOf_append_self _ _
    rw [List.cons_append] at hpre
    rw [List.cons_append]
    show (if !(a :: pr).isEmpty && (a :: pr).isPrefixOf (a :: (pr ++ s)) then
        rep ++ replaceAllF n (a :: pr) rep ((a :: (pr ++ s)).drop (a :: pr).length)
      else a :: replaceAllF n (a :: pr) rep (pr ++ s)) = rep ++ replaceAllF n (a :: pr) rep s
    rw [hpre]
    simp only [List.isEmpty_cons, Bool.not_false, Bool.and_true, if_true]
    have hdrop : (a :: (pr ++ s)).drop (a :: pr).length = s := by
      rw [show (a :: pr).length = pr.length + 1 from rfl, List.drop_succ_cons, List.drop_left]
    rw [hdrop]

/-- Scanning past a fence-free tail followed by the newline-fence suffix leaves
    everything unchanged (the longer pattern never matches there). -/
theorem replaceAllF_fenceJson_tail :
    ∀ (t : List Char), hasSub fence t = false →
      ∀ n, replaceAllF n fenceJson [] (t ++ '\n' :: fence) = t ++ '\n' :: fence := by
  intro t
  induction t with
  | nil =>
    intro _ n
    simpa using replaceAllF_no_occurrence fenceJson [] ('\n' :: fence) n (by decide)
  | cons c t ih =>
    intro hf n
    simp only [hasSub, Bool.or_eq_false_iff] at hf
    cases n with
    | zero => rfl
    | succ n =>
      have hfj : fence ++ "json".toList = fenceJson := by decide
      have hnp : fenceJson.isPrefixOf (c :: (t ++ '\n' :: fence)) = false := by
        by_contra hcon
        have hc : fenceJson.isPrefixOf (c :: (t ++ '\n' :: fence)) = true := by
          revert hcon
          cases fenceJson.isPrefixOf (c :: (t ++ '\n' :: fence)) <;> simp
        rw [← List.cons_append] at hc
        have h2 : fenceJson.isPrefixOf (c :: t) = true :=
          isPrefixOf_through_sep _ _ _ '\n' (by decide) hc
        obtain ⟨r1, hr1⟩ := (isPrefixOf_iff_exists _ _).mp h2
        have h3 : fence.isPrefixOf (c :: t) = true := by
          apply (isPrefixOf_iff_exists _ _).mpr
          refine ⟨"json".toList ++ r1, ?_⟩
          rw [← List.append_assoc, hfj]
          exact hr1
        simp [h3] at hf
      rw [List.cons_append]
      show (if !fenceJson.isEmpty && fenceJson.isPrefixOf (c :: (t ++ '\n' :: fence)) then
          [] ++ replaceAllF n fenceJson [] ((c :: (t ++ '\n' :: fence)).drop fenceJson.length)
        else c :: replaceAllF n fenceJson [] (t ++ '\n' :: fence)) = c :: (t ++ '\n' :: fence)
      rw [hnp]
      simp [ih hf.2 n]

/-- Scanning a fence-free prefix, the short fence pattern first fires at the
    trailing fence, deleting it. -/
theorem replaceAllF_fence_tail :
    ∀ (t : List Char) (k : Nat), hasSub fence t = false →
      replaceAllF (t.length + 4 + k) fence [] (t ++ '\n' :: fence) = t ++ ['\n'] := by
  intro t
  induction t with
  | nil =>
    intro k _
    have h4 : (List.nil (α := Char)).length + 4 + k = (3 + k) + 1 := by simp; omega
    rw [h4, List.nil_append]
    show (if !fence.isEmpty && fence.isPrefixOf ('\n' :: fence) then
        [] ++ replaceAllF (3 + k) fence [] (('\n' :: fence).drop fence.length)
      else '\n' :: replaceAllF (3 + k) fence [] fence) = ['\n']
    rw [show fence.isPrefixOf ('\n' :: fence) = false from rfl]
    simp only [Bool.and_false, Bool.false_eq_true, if_false]
    have h3 : (3 : Nat) + k = (2 + k) + 1 := by omega
    have hfire : replaceAllF ((2 + k) + 1) fence [] (fence ++ []) =
        [] ++ replaceAllF (2 + k) fence [] [] :=
      replaceAllF_fires fence [] [] (2 + k) (by decide)
    rw [List.append_nil] at hfire
    rw [h3, hfire, replaceAllF_nil]
    rfl
  | cons c t ih =>
    intro k hf
    simp only [hasSub, Bool.or_eq_false_iff] at hf
    have hfu : (c :: t).length + 4 + k = (t.length + 4 + k) + 1 := by simp; omega
    rw [hfu, List.cons_append]
    have hnp : fence.isPrefixOf (c :: (t ++ '\n' :: fence)) = false := by
      by_contra hcon
      have hc : fence.isPrefixOf (c :: (t ++ '\n' :: fence)) = true := by
        revert hcon
        cases fence.isPrefixOf (c :: (t ++ '\n' :: fence)) <;> simp
      rw [← List.cons_append] at hc
      have h2 : fence.isPrefixOf (c :: t) = true :=
        isPrefixOf_through_sep _ _ _ '\n' (by decide) hc
      simp [h2] at hf
    show (if !fence.isEmpty && fence.isPrefixOf (c :: (t ++ '\n' :: fence)) then
        [] ++ replaceAllF (t.length + 4 + k) fence [] ((c :: (t ++ '\n' :: fence)).drop fence.length)
      else c :: replaceAllF (t.length + 4 + k) fence [] (t ++ '\n' :: fence)) = (c :: t) ++ ['\n']
    rw [hnp]
    simp only [Bool.and_false, Bool.false_eq_true, if_false]
    rw [ih k hf.2]
    simp

/-- Python strip leaves the fence-wrapped candidate text untouched: it starts
    and ends with a backtick. -/
theorem pyStrip_fenceWrap (t : List Char) : pyStrip (fenceWrap t) = fenceWrap t := by
  have hshape1 : fenceWrap t = '\x60' :: ("``json".toList ++ ('\n' :: (t ++ '\n' :: fence))) := by
    unfold fenceWrap
    rw [show fenceJson = '\x60' :: "``json".toList from by decide, List.cons_append]
  have hshape2 : fenceWrap t
      = (fenceJson ++ ('\n' :: (t ++ ['\n', '\x60', '\x60']))) ++ ['\x60'] := by
    unfold fenceWrap
    rw [show fence = ['\x60', '\x60', '\x60'] from by decide]
    simp
  unfold pyStrip
  have h1 : (fenceWrap t).dropWhile isPyWsChar = fenceWrap t := by
    rw [hshape1, List.dropWhile_cons, show isPyWsChar '\x60' = false from rfl]
    simp
  rw [h1]
  have h2 : (fenceWrap t).reverse.dropWhile isPyWsChar = (fenceWrap t).reverse := by
    rw [hshape2, List.reverse_append, List.reverse_singleton, List.singleton_append,
      List.dropWhile_cons, show isPyWsChar '\x60' = false from rfl]
    simp
  rw [h2, List.reverse_reverse]

/-- The two global replacements turn the fence-wrapped text into the candidate
    text surrounded by the two newlines, provided the candidate text itself
    contains no fence. -/
theorem pyClean_fenceWrap (t : List Char) (hf : hasSub fence t = false) :
    pyClean (fenceWrap t) = '\n' :: (t ++ ['\n']) := by
  unfold pyClean
  rw [pyStrip_fenceWrap]
  have h1 : pyReplace (fenceWrap t) fenceJson [] = '\n' :: (t ++ '\n' :: fence) := by
    unfold pyReplace
    have hlen : (fenceWrap t).length = (t.length + 11) + 1 := by
      unfold fenceWrap
      rw [List.length_append, show fenceJson.length = 7 from by decide, List.length_cons,
        List.length_append, List.length_cons, show fence.length = 3 from by decide]
      omega
    rw [hlen, show fenceWrap t = fenceJson ++ ('\n' :: (t ++ '\n' :: fence)) from rfl,
      replaceAllF_fires fenceJson [] _ (t.length + 11) (by decide), List.nil_append,
      show t.length + 11 = (t.length + 10) + 1 from by omega]
    show (if !fenceJson.isEmpty && fenceJson.isPrefixOf ('\n' :: (t ++ '\n' :: fence)) then
        [] ++ replaceAllF (t.length + 10) fenceJson []
          (('\n' :: (t ++ '\n' :: fence)).drop fenceJson.length)
      else '\n' :: replaceAllF (t.length + 10) fenceJson [] (t ++ '\n' :: fence))
      = '\n' :: (t ++ '\n' :: fence)
    rw [show fenceJson.isPrefixOf ('\n' :: (t ++ '\n' :: fence)) = false from rfl]
    simp [replaceAllF_fenceJson_tail t hf]
  rw [h1]
  unfold pyReplace
  have hlen2 : ('\n' :: (t ++ '\n' :: fence)).length = (t.length + 4) + 1 := by
    rw [List.length_cons, List.length_append, List.length_cons,
      show fence.length = 3 from by decide]
  rw [hlen2]
  show (if !fence.isEmpty && fence.isPrefixOf ('\n' :: (t ++ '\n' :: fence)) then
      [] ++ replaceAllF (t.length + 4) fence []
        (('\n' :: (t ++ '\n' :: fence)).drop fence.length)
    else '\n' :: replaceAllF (t.length + 4) fence [] (t ++ '\n' :: fence))
    = '\n' :: (t ++ ['\n'])
  rw [show fence.isPrefixOf ('\n' :: (t ++ '\n' :: fence)) = false from rfl]
  simp only [Bool.and_false, Bool.false_eq_true, if_false]
  exact congrArg (fun x => '\n' :: x) (replaceAllF_fence_tail t 0 hf)

theorem dropWhile_append_nil (p : Char → Bool) (a b : List Char)
    (h : a.dropWhile p = []) : (a ++ b).dropWhile p = b.dropWhile p := by
  induction a with
  | nil => simp
  | cons c a ih =>
    rw [List.dropWhile_cons] at h
    by_cases hc : p c
    · simp only [hc, if_true] at h
      rw [List.cons_append, List.dropWhile_cons]
      simp [hc, ih h]
    · simp [hc] at h

theorem dropWhile_append_cons (p : Char → Bool) (a b : List Char) (x : Char) (xs : List Char)
    (h : a.dropWhile p = x :: xs) : (a ++ b).dropWhile p = x :: (xs ++ b) := by
  induction a with
  | nil => simp at h
  | cons c a ih =>
    rw [List.dropWhile_cons] at h
    by_cases hc : p c
    · rw [if_pos hc] at h
      rw [List.cons_append, List.dropWhile_cons, if_pos hc]
      exact ih h
    · rw [if_neg hc] at h
      injection h with h1 h2
      rw [List.cons_append, List.dropWhile_cons, if_neg hc, h1, h2]

theorem dropTrailJsonWs_append_ws (s : List Char) (c : Char) (hc : isJsonWs c = true) :
    dropTrailJsonWs (s ++ [c]) = dropTrailJsonWs s := by
  unfold dropTrailJsonWs
  rw [List.reverse_append, List.reverse_singleton, List.singleton_append,
    List.dropWhile_cons, hc]
  simp

/-- json.loads ignores the surrounding newlines left over after fence removal. -/
theorem jsonTrim_pad (t : List Char) : jsonTrim ('\n' :: (t ++ ['\n'])) = jsonTrim t := by
  unfold jsonTrim skipJsonWs
  rw [List.dropWhile_cons, show isJsonWs '\n' = true from rfl]
  simp only [if_true]
  cases hd : t.dropWhile isJsonWs with
  | nil =>
    rw [dropWhile_append_nil _ _ _ hd]
    rw [show (['\n'] : List Char).dropWhile isJsonWs = [] from rfl]
  | cons x xs =>
    rw [dropWhile_append_cons _ _ _ _ _ hd,
      show x :: (xs ++ ['\n']) = (x :: xs) ++ ['\n'] from rfl]
    exact dropTrailJsonWs_append_ws _ '\n' rfl

theorem loads_pad (t : List Char) : loads ('\n' :: (t ++ ['\n'])) = loads t := by
  unfold loads
  rw [jsonTrim_pad]

/-- C5 counterexample: a candidate text that is a JSON object containing a
    fence sequence in a string value parses fine on its own, but after the
    global replacements the parsed object differs - the inner occurrence is
    destroyed too. -/
theorem fence_strip_counterexample :
    (loads trickyText).isSome = true ∧
    aFieldString (loads trickyText) = some "x```json y".toList ∧
    aFieldString (loads (pyClean (fenceWrap trickyText))) = some "x y".toList ∧
    some "x```json y".toList ≠ some "x y".toList := by
  refine ⟨rfl, rfl, rfl, by decide⟩

/-- C5 amended: whenever the candidate text contains no fence sequence of its
    own, cleaning the fence-wrapped response leaves exactly the candidate text
    between two newlines, and parsing it yields the same value as parsing the
    unfenced text. -/
theorem fence_strip_amended (t : List Char) (hf : hasSub fence t = false) :
    pyClean (fenceWrap t) = '\n' :: (t ++ ['\n']) ∧
    loads (pyClean (fenceWrap t)) = loads t := by
  refine ⟨pyClean_fenceWrap t hf, ?_⟩
  rw [pyClean_fenceWrap t hf, loads_pad]

/-- Witness for the amended C5 on a small fenced object. -/
theorem fence_strip_amended_witness :
    hasSub fence "\x7b\"a\": 1\x7d".toList = false ∧
    loads (pyClean (fenceWrap "\x7b\"a\": 1\x7d".toList))
      = some (Json.obj [("a".toList, Json.num 1)]) := by
  refine ⟨by decide, ?_⟩
  rw [(fence_strip_amended "\x7b\"a\": 1\x7d".toList (by decide)).2]
  rfl
